import Mathlib

/-!
Verification development for the equine-bodywork repository.

The embedding below translates, from `src/Equine_Bodywork.py`:
  * `export_canvas_to_file` (lines 26-55): canvas JSON to polyline draw
    commands composited on a copy of the background image;
  * the session save block (lines 169-199): CSV append-or-create,
    image export, optional e-mail delivery;
  * `send_session_email` (lines 61-115): attachment gathering and the
    guarded SendGrid call.
Values coming from the canvas JSON are modelled by the type `JVal`;
images are modelled at the resolution of pixel grids plus the ordered
list of draw commands applied to them (the pixel output of PIL's line
renderer is external library behaviour outside the scope of the claims).
-/

namespace Equine

/-- A JSON scalar as it appears inside a canvas payload (`json_data`):
a number, a string, a boolean, or null. Numbers are modelled as
rationals (canvas coordinates are decimal numbers). -/
inductive JVal where
  | num (x : Rat)
  | str (s : String)
  | bool (b : Bool)
  | null
deriving DecidableEq, Repr

/-- Value of a single lowercase hexadecimal digit, `none` otherwise. -/
def hexVal (c : Char) : Option Nat :=
  if '0' ≤ c ∧ c ≤ '9' then some (c.toNat - '0'.toNat)
  else if 'a' ≤ c ∧ c ≤ 'f' then some (c.toNat - 'a'.toNat + 10)
  else none

/-- The CSS named colours our model of `ImageColor.getrgb` knows. -/
def namedColors : List (String × (Int × Int × Int)) :=
  [("red", (255, 0, 0)), ("green", (0, 128, 0)), ("blue", (0, 0, 255)),
   ("black", (0, 0, 0)), ("white", (255, 255, 255)),
   ("yellow", (255, 255, 0)), ("lime", (0, 255, 0))]

/-- ASCII lowercase of one character. -/
def lowerChar (c : Char) : Char :=
  if 'A' ≤ c ∧ c ≤ 'Z' then Char.ofNat (c.toNat + 32) else c

/-- Model of PIL's `ImageColor.getrgb`, restricted to the fragment the
application exercises: case-insensitive `#rrggbb` / `#rgb` hex colours
and a table of common CSS colour names. A string outside this fragment
yields `none`, standing for the `ValueError` PIL raises on a malformed
colour specifier. -/
def getrgb (s : String) : Option (Int × Int × Int) :=
  let t := s.data.map lowerChar
  match t with
  | '#' :: rest =>
    match rest with
    | [a, b, c, d, e, f] => do
        let ha ← hexVal a
        let hb ← hexVal b
        let hc ← hexVal c
        let hd ← hexVal d
        let he ← hexVal e
        let hf ← hexVal f
        some ((16 * ha + hb : Nat), (16 * hc + hd : Nat), (16 * he + hf : Nat))
    | [a, b, c] => do
        let ha ← hexVal a
        let hb ← hexVal b
        let hc ← hexVal c
        some ((17 * ha : Nat), (17 * hb : Nat), (17 * hc : Nat))
    | _ => none
  | _ => (namedColors.find? (fun p => p.1.data = t)).map (fun p => p.2)

/-- Model of Python's `int(...)` conversion as applied to a JSON value:
numbers truncate toward zero, strings must spell an integer literal
(else `ValueError`), booleans coerce to 0/1, and `None` raises
(`TypeError`), modelled as `none`. -/
def pyInt : JVal → Option Int
  | JVal.num x => some (if 0 ≤ x then x.floor else -((-x).floor))
  | JVal.str s => s.trim.toInt?
  | JVal.bool b => some (if b then 1 else 0)
  | JVal.null => none

/-- One iteration of the segment loop of `export_canvas_to_file`
(lines 41-47): `cmd = segment[0]`, `coords = segment[1:]`; an `M` or
`L` command appends `(coords[0], coords[1])`, a `Q` command appends
`(coords[2], coords[3])`, anything else appends nothing. A missing
index is an `IndexError`, modelled as `none` (the exception is caught
per path object). -/
def stepSeg (acc : List (JVal × JVal)) : List JVal → Option (List (JVal × JVal))
  | [] => none
  | cmd :: coords =>
    if cmd = JVal.str "M" ∨ cmd = JVal.str "L" then
      match coords.get? 0, coords.get? 1 with
      | some x, some y => some (acc ++ [(x, y)])
      | _, _ => none
    else if cmd = JVal.str "Q" then
      match coords.get? 2, coords.get? 3 with
      | some x, some y => some (acc ++ [(x, y)])
      | _, _ => none
    else
      some acc

/-- The whole `for segment in obj.get("path", [])` loop: threads the
accumulated `path_points` list through `stepSeg`, propagating a raised
exception. -/
def walkSegs (acc : List (JVal × JVal)) : List (List JVal) → Option (List (JVal × JVal))
  | [] => some acc
  | s :: rest =>
    match stepSeg acc s with
    | none => none
    | some acc2 => walkSegs acc2 rest

/-- PIL's `draw.line` requires numeric coordinates; a non-numeric entry
in the point list raises, modelled as `none`. -/
def toNumPoints : List (JVal × JVal) → Option (List (Rat × Rat))
  | [] => some []
  | (JVal.num x, JVal.num y) :: rest =>
    match toNumPoints rest with
    | some ps => some ((x, y) :: ps)
    | none => none
  | _ => none

/-- One object of the canvas payload's `objects` list, with the fields
`export_canvas_to_file` reads: `type`, `stroke`, `strokeWidth`, `path`.
`none` stands for an absent key (`obj.get`); an absent `path` key is
the empty list (`obj.get("path", [])`). -/
structure PathObj where
  type : Option String
  stroke : Option String
  strokeWidth : Option JVal
  path : List (List JVal)
deriving DecidableEq, Repr

/-- A single call of PIL's `draw.line(path_points, fill=color,
width=stroke_width)`. -/
structure DrawCmd where
  points : List (Rat × Rat)
  color : Int × Int × Int × Int
  width : Int
deriving DecidableEq, Repr

/-- The body of the `try` block for one path object (lines 35-50):
resolve `stroke_width` via `int(...)`, resolve the colour via
`ImageColor.getrgb`, walk the segments, and draw iff more than one
point accumulated. Result `none` is a raised exception (the object is
skipped and the error printed); `some none` is a normal pass that drew
nothing; `some (some c)` drew the command `c`. -/
def processPath (o : PathObj) : Option (Option DrawCmd) :=
  match pyInt (o.strokeWidth.getD (JVal.num 3)) with
  | none => none
  | some w =>
    match getrgb (o.stroke.getD "#ff0000") with
    | none => none
    | some (r, g, b) =>
      match walkSegs [] o.path with
      | none => none
      | some pts =>
        if 1 < pts.length then
          match toNumPoints pts with
          | none => none
          | some qpts => some (some ⟨qpts, (r, g, b, 255), w⟩)
        else some none

/-- Outcome of the per-object loop iteration (lines 33-53): non-path
objects are ignored, a raised exception is caught and printed
(`errorSkipped`), otherwise the object is processed normally. -/
inductive ObjOutcome where
  | ignored
  | errorSkipped
  | ok (draw : Option DrawCmd)
deriving DecidableEq, Repr

/-- Dispatch for one element of `canvas_data.json_data["objects"]`. -/
def objOutcome (o : PathObj) : ObjOutcome :=
  if o.type = some "path" then
    match processPath o with
    | none => ObjOutcome.errorSkipped
    | some d => ObjOutcome.ok d
  else ObjOutcome.ignored

/-- The draw command an object contributes, if any. -/
def objDraw (o : PathObj) : Option DrawCmd :=
  match objOutcome o with
  | ObjOutcome.ok (some c) => some c
  | _ => none

/-- All draw commands of a payload, in object order. -/
def drawCmds (objs : List PathObj) : List DrawCmd :=
  objs.filterMap objDraw

/-- A raster image: a PIL mode string and a row-major pixel grid
(four channels stored; in a non-RGBA mode the fourth channel is
carried along but unused). -/
structure Image where
  mode : String
  pixels : List (List (Int × Int × Int × Int))
deriving DecidableEq, Repr

/-- Force a pixel's alpha channel to fully opaque. -/
def setOpaque (p : Int × Int × Int × Int) : Int × Int × Int × Int :=
  (p.1, p.2.1, p.2.2.1, 255)

/-- Model of `background_image.convert("RGBA")` for the modes the app
feeds it: an RGBA image is returned as-is (PIL returns a copy with the
same pixels), any other colour mode gets a fully-opaque alpha channel
added. -/
def convertRGBA (img : Image) : Image :=
  if img.mode = "RGBA" then img
  else ⟨"RGBA", img.pixels.map (fun row => row.map setOpaque)⟩

/-- An image produced by drawing: the converted base plus the ordered
draw commands applied to it. The pixel effect of a command is PIL
library behaviour, kept symbolic. -/
structure RImage where
  base : Image
  ops : List DrawCmd
deriving DecidableEq, Repr

/-- The canvas widget's `json_data` dictionary, when truthy:
`hasObjects` records whether the key `"objects"` is present, `objects`
its value. -/
structure CanvasJSON where
  hasObjects : Bool
  objects : List PathObj
deriving DecidableEq, Repr

/-- Function `export_canvas_to_file(canvas_data, background_image, save_path)`,
lines 26-55. The argument `jd` is `canvas_data.json_data` (`none` for a
falsy value). The first component of the result is the background
image object after the call: `Image.convert` returns a fresh copy, and
all drawing targets that copy, so the source is returned unchanged.
The second component is the file written at `save_path` (`none` when
the guard on line 27 returns early and nothing is saved). -/
def export_canvas_to_file (jd : Option CanvasJSON) (bg : Image) :
    Image × Option RImage :=
  match jd with
  | none => (bg, none)
  | some cd =>
    if cd.hasObjects then (bg, some ⟨convertRGBA bg, drawCmds cd.objects⟩)
    else (bg, none)

/-- The fixed column order of `data/session_data.csv`, from the
`session_data` dictionary of the save block (lines 170-177). -/
def csvHeader : List String :=
  ["Date", "Horse", "Amount", "Paid", "Email", "Notes"]

/-- One session record, each field in its serialized string form. -/
structure SessionRecord where
  date : String
  horse : String
  amount : String
  paid : String
  email : String
  notes : String
deriving DecidableEq, Repr

/-- The CSV data row a session record becomes, columns in the fixed
order of `csvHeader`. -/
def recordRow (r : SessionRecord) : List String :=
  [r.date, r.horse, r.amount, r.paid, r.email, r.notes]

/-- CSV minimal quoting (pandas `to_csv` default): a field is quoted
iff it contains a comma, a double quote, or a newline. -/
def needsQuote (s : String) : Bool :=
  s.data.any (fun c => c = ',' || c = '"' || c = '\n')

/-- Double every double quote inside a quoted CSV field. -/
def escQuotes : List Char → List Char
  | [] => []
  | c :: cs => if c = '"' then '"' :: '"' :: escQuotes cs else c :: escQuotes cs

/-- Serialize one CSV field under minimal quoting. -/
def csvField (s : String) : String :=
  if needsQuote s then "\"" ++ String.mk (escQuotes s.data) ++ "\"" else s

/-- Join the serialized fields of one row with commas. -/
def joinFields : List String → String
  | [] => ""
  | [f] => csvField f
  | f :: fs => csvField f ++ "," ++ joinFields fs

/-- One physical CSV row: joined fields plus the terminating newline. -/
def csvLine (fs : List String) : String :=
  joinFields fs ++ "\n"

/-- The text of a CSV file holding the given rows. -/
def csvText : List (List String) → String
  | [] => ""
  | r :: rs => csvLine r ++ csvText rs

/-- Number of newline characters in a string; the file text always
ends with a newline, so this is its line count. -/
def newlineCount (s : String) : Nat :=
  s.data.count '\n'

/-- Holds iff a field contains no newline character. -/
def noNL (s : String) : Bool :=
  !(s.data.contains '\n')

/-- The default `na_values` list of pandas `read_csv`: a cell holding
any of these strings is read back as NaN. -/
def naStrings : List String :=
  ["", "#N/A", "#N/A N/A", "#NA", "-1.#IND", "-1.#QNAN", "-NaN", "-nan",
   "1.#IND", "1.#QNAN", "<NA>", "N/A", "NA", "NULL", "NaN", "None",
   "n/a", "nan", "null"]

/-- What one cell becomes across the `read_csv` → `to_csv` round trip
of the save block, for the modelled NA fragment: an NA-like string is
read as NaN and written back as an empty field; any other string is
kept (dtype inference is outside this fragment, see `saveRecord`). -/
def naNormalize (s : String) : String :=
  if s ∈ naStrings then "" else s

/-- The pandas read-back applied to the rows of an existing store
file: every cell is NA-normalized. -/
def readBack (rows : List (List String)) : List (List String) :=
  rows.map (fun row => row.map naNormalize)

/-- Decimal digit test. -/
def isDigitCh (c : Char) : Bool :=
  '0' ≤ c && c ≤ '9'

/-- Strip one leading `+` or `-` sign. -/
def dropSign : List Char → List Char
  | [] => []
  | c :: cs => if c = '+' ∨ c = '-' then cs else c :: cs

/-- Accepts an optional trailing exponent (`e`/`E`, optional sign,
digits) or the end of the token. -/
def expPart : List Char → Bool
  | [] => true
  | c :: rest =>
    if c = 'e' ∨ c = 'E' then
      let rest2 := dropSign rest
      !rest2.isEmpty && rest2.all isDigitCh
    else false

/-- Whether a string spells an int/float literal as pandas dtype
inference would parse it (optional sign, digits with an optional
decimal point, optional exponent). A column whose cells all parse this
way is read back as a numeric column and rewritten in canonical form,
so such cells may not survive the round trip verbatim. -/
def numLike (s : String) : Bool :=
  let l := dropSign s.data
  let d1 := l.takeWhile isDigitCh
  let r1 := l.dropWhile isDigitCh
  match r1 with
  | [] => !d1.isEmpty
  | '.' :: r2 =>
    let d2 := r2.takeWhile isDigitCh
    let r3 := r2.dropWhile isDigitCh
    (!d1.isEmpty || !d2.isEmpty) && expPart r3
  | _ => !d1.isEmpty && expPart r1

/-- A field that survives the pandas round trip verbatim: not in the
default NA list (so it is not rewritten empty) and not numeric-looking
(so no dtype inference can normalize it; its column stays `object`).
On such fields `naNormalize` — and real pandas — is the identity. -/
def stableField (s : String) : Bool :=
  !(decide (s ∈ naStrings)) && !(numLike s)

/-- The record-store step of the save block (lines 179-184): the store
is `none` while `data/session_data.csv` does not exist, and the first
save creates the file with the header row and one data row; a later
save reads the existing file back with `pd.read_csv` (line 182),
concatenates the new one-row frame, and rewrites everything. The
read-back is not the identity: `readBack` models pandas' default
cell-level NA handling (NA-like text returns as NaN and is rewritten
as an empty field). Numeric dtype inference, which can additionally
normalize numeric-looking text (e.g. `007` to `7`), is outside the
modelled fragment; the preservation theorem below therefore restricts
itself to `stableField` cells, on which this model and pandas agree
(both keep them verbatim). -/
def saveRecord (store : Option (List (List String))) (r : SessionRecord) :
    List (List String) :=
  match store with
  | none => [csvHeader, recordRow r]
  | some rows => readBack rows ++ [recordRow r]

/-- The store contents after appending a list of records, in order, to
a fresh (non-existent) location. `none`: the file was never created. -/
def storeAfter (rs : List SessionRecord) : Option (List (List String)) :=
  rs.foldl (fun st r => some (saveRecord st r)) none

/-- Observable events of the save-and-send flow, in program order. -/
inductive Ev where
  | persist
  | savedMsg
  | exportLeft
  | exportRight
  | apiSend (nAttach : Nat)
  | sgErrorMsg
  | sentMsg
  | failWarnMsg
deriving DecidableEq, Repr

/-- The attachment file names gathered by `send_session_email`
(lines 94-104): one per side whose exported diagram file exists on
disk (`os.path.exists` guard). -/
def emailAttachments (horse : String) (leftExists rightExists : Bool) :
    List String :=
  (if leftExists then [horse ++ "_left.png"] else []) ++
  (if rightExists then [horse ++ "_right.png"] else [])

/-- Function `send_session_email` (lines 61-115), at the resolution of the
claims: attachments are gathered before the `try` block, `sg.send` is
one delivery attempt, and any exception it raises is caught, reported
via `st.error` / `st.exception`, and turned into the return value
`False`. `sendFails` abstracts whether the SendGrid call raises
(auth, network, quota). Returns the emitted events and the Boolean
the function returns. -/
def send_session_email (horse : String) (leftExists rightExists sendFails : Bool) :
    List Ev × Bool :=
  let atts := emailAttachments horse leftExists rightExists
  if sendFails then ([Ev.apiSend atts.length, Ev.sgErrorMsg], false)
  else ([Ev.apiSend atts.length], true)

/-- The `Save Session` block (lines 169-199): persist the record to
the CSV store, show the saved message, export both annotated diagrams,
and, only when `client_email` is truthy (non-empty), call
`send_session_email` once and show the success or warning message.
Returns the new store contents and the event trace in program order. -/
def saveSessionFlow (store : Option (List (List String))) (r : SessionRecord)
    (clientEmail horse : String) (leftExists rightExists sendFails : Bool) :
    List (List String) × List Ev :=
  let rows := saveRecord store r
  let sendPart :=
    if clientEmail ≠ "" then
      let res := send_session_email horse leftExists rightExists sendFails
      res.1 ++ (if res.2 then [Ev.sentMsg] else [Ev.failWarnMsg])
    else []
  (rows, [Ev.persist, Ev.savedMsg, Ev.exportLeft, Ev.exportRight] ++ sendPart)

/-- Number of delivery attempts in an event trace. -/
def countSends (evs : List Ev) : Nat :=
  evs.countP (fun e => match e with | Ev.apiSend _ => true | _ => false)

/-- A segment list made only of well-formed `MoveTo`/`LineTo` segments
(command `"M"` or `"L"` followed by two numeric coordinates), paired
with the list of their `(x, y)` endpoints in segment order. -/
inductive MLSegs : List (List JVal) → List (Rat × Rat) → Prop where
  | nil : MLSegs [] []
  | cons (cmd : String) (x y : Rat) (rest : List JVal) (segs : List (List JVal))
      (pts : List (Rat × Rat)) :
      cmd = "M" ∨ cmd = "L" → MLSegs segs pts →
      MLSegs ((JVal.str cmd :: JVal.num x :: JVal.num y :: rest) :: segs) ((x, y) :: pts)

/-- The straight segments of the polyline through a point list: each
consecutive pair of points. -/
def chords (pts : List (Rat × Rat)) : List ((Rat × Rat) × (Rat × Rat)) :=
  pts.zip pts.tail

/-- The straight segments an optional draw command paints. -/
def renderChords : Option DrawCmd → List ((Rat × Rat) × (Rat × Rat))
  | none => []
  | some c => chords c.points

/-- A small RGB background image used as a concrete input. -/
def bgRGB : Image :=
  ⟨"RGB", [[(10, 20, 30, 0)], [(40, 50, 60, 7)]]⟩

/-- A well-formed two-point freehand path object with all optional
keys absent. -/
def mlObj : PathObj :=
  ⟨some "path", none, none,
   [[JVal.str "M", JVal.num 0, JVal.num 0],
    [JVal.str "L", JVal.num 1, JVal.num 2]]⟩

/-- A path object whose single segment `["M", 1]` is missing its `y`
coordinate: `coords[1]` raises `IndexError`. -/
def badSegObj : PathObj :=
  ⟨some "path", none, none, [[JVal.str "M", JVal.num 1]]⟩

/-- A path object with two good segments but an unparseable colour
string, on which `ImageColor.getrgb` raises `ValueError`. -/
def badColorObj : PathObj :=
  ⟨some "path", some "notacolor", none,
   [[JVal.str "M", JVal.num 0, JVal.num 0],
    [JVal.str "L", JVal.num 1, JVal.num 2]]⟩

/-- A session record whose notes span two lines, as the multiline
notes text area naturally produces. -/
def twoLineNoteRec : SessionRecord :=
  ⟨"2024-05-01", "Star", "50.0", "True", "", "first line\nsecond line"⟩

/-- A session record with newline-free fields. -/
def plainRec : SessionRecord :=
  ⟨"2024-05-01", "Star", "50.0", "True", "a@b.c", "sore left shoulder"⟩

/-- A session record whose Notes field is the string `NA` — perfectly
ordinary free text, but on pandas' default NA list. -/
def naNoteRec : SessionRecord :=
  ⟨"2024-06-01", "Comet", "60.0", "False", "", "NA"⟩

/-- A session record all of whose fields are round-trip stable. -/
def stableRec : SessionRecord :=
  ⟨"May 1 2024", "Star", "$50.00", "True", "a@b.c", "sore left shoulder"⟩

/-- A second all-stable session record. -/
def stableRec2 : SessionRecord :=
  ⟨"May 2 2024", "Comet", "$75.00", "False", "b@c.d", "better now"⟩

/-- A path object holding one `MoveTo` and one `QuadraticTo` segment,
with default colour and width. -/
def mqObj (x0 y0 cx cy ex ey : Rat) : PathObj :=
  ⟨some "path", none, none,
   [[JVal.str "M", JVal.num x0, JVal.num y0],
    [JVal.str "Q", JVal.num cx, JVal.num cy, JVal.num ex, JVal.num ey]]⟩

/-! ### Supporting lemmas -/

theorem walkSegs_ml {segs : List (List JVal)} {pts : List (Rat × Rat)}
    (h : MLSegs segs pts) :
    ∀ acc, walkSegs acc segs =
      some (acc ++ pts.map (fun p => (JVal.num p.1, JVal.num p.2))) := by
  induction h with
  | nil => intro acc; simp [walkSegs]
  | cons cmd x y rest segs pts hcmd _ ih =>
    intro acc
    have hc : JVal.str cmd = JVal.str "M" ∨ JVal.str cmd = JVal.str "L" := by
      rcases hcmd with h | h <;> [left; right] <;> rw [h]
    simp only [walkSegs, stepSeg, if_pos hc, List.get?]
    rw [ih (acc ++ [(JVal.num x, JVal.num y)])]
    simp

theorem toNumPoints_map (pts : List (Rat × Rat)) :
    toNumPoints (pts.map (fun p => (JVal.num p.1, JVal.num p.2))) = some pts := by
  induction pts with
  | nil => rfl
  | cons p rest ih =>
    obtain ⟨a, b⟩ := p
    simp [toNumPoints, ih]

theorem toNumPoints_length :
    ∀ (pts : List (JVal × JVal)) (qpts : List (Rat × Rat)),
      toNumPoints pts = some qpts → qpts.length = pts.length := by
  intro pts
  induction pts with
  | nil => intro qpts h; simp [toNumPoints] at h; simp [← h]
  | cons p rest ih =>
    intro qpts h
    obtain ⟨u, v⟩ := p
    cases u <;> cases v <;> simp [toNumPoints] at h
    case num.num x y =>
      rcases hr : toNumPoints rest with _ | ps
      · rw [hr] at h; simp at h
      · rw [hr] at h
        simp at h
        rw [← h]
        simp [ih ps hr]

theorem processPath_ml (o : PathObj) (pts : List (Rat × Rat))
    (r g b : Int) (w : Int)
    (hml : MLSegs o.path pts)
    (hc : getrgb (o.stroke.getD "#ff0000") = some (r, g, b))
    (hw : pyInt (o.strokeWidth.getD (JVal.num 3)) = some w) :
    processPath o =
      some (if 1 < pts.length then some ⟨pts, (r, g, b, 255), w⟩ else none) := by
  simp only [processPath, hw, hc, walkSegs_ml hml [], List.nil_append]
  rw [List.length_map]
  by_cases hlen : 1 < pts.length
  · rw [if_pos hlen, if_pos hlen, toNumPoints_map]
  · rw [if_neg hlen, if_neg hlen]

theorem chords_short {pts : List (Rat × Rat)} (h : ¬ 1 < pts.length) :
    chords pts = [] := by
  match pts with
  | [] => rfl
  | [p] => rfl
  | p :: q :: rest => simp at h

theorem walkSegs_append_skip {unk : List JVal}
    (h : ∀ acc, stepSeg acc unk = some acc) :
    ∀ (l1 : List (List JVal)) (acc : List (JVal × JVal)) (l2 : List (List JVal)),
      walkSegs acc (l1 ++ unk :: l2) = walkSegs acc (l1 ++ l2) := by
  intro l1
  induction l1 with
  | nil => intro acc l2; simp [walkSegs, h acc]
  | cons s t ih =>
    intro acc l2
    simp only [List.cons_append, walkSegs]
    rcases stepSeg acc s with _ | acc2
    · rfl
    · exact ih acc2 l2

theorem processPath_draw_length {o : PathObj} {c : DrawCmd}
    (h : processPath o = some (some c)) : 1 < c.points.length := by
  unfold processPath at h
  split at h
  · exact Option.noConfusion h
  split at h
  · exact Option.noConfusion h
  split at h
  · exact Option.noConfusion h
  rename_i pts hpts
  by_cases hlen : 1 < pts.length
  · rw [if_pos hlen] at h
    rcases hq : toNumPoints pts with _ | qpts <;> rw [hq] at h
    · exact Option.noConfusion h
    · simp only [Option.some.injEq] at h
      rw [← h]
      show 1 < qpts.length
      rw [toNumPoints_length pts qpts hq]
      exact hlen
  · rw [if_neg hlen] at h
    simp at h

/-! ### Claim theorems -/

/-- C2: a quadratic segment `["Q", controlX, controlY, endX, endY]`
contributes exactly its declared end point to the vertex list — the
control point is discarded — and a `MoveTo` followed by a
`QuadraticTo` is drawn as the straight chord from the start point to
the declared endpoint, never through any curve point. -/
theorem c2_quadratic_as_chord :
    (∀ (acc : List (JVal × JVal)) (c1 c2 x y : JVal) (rest : List JVal),
      stepSeg acc (JVal.str "Q" :: c1 :: c2 :: x :: y :: rest) = some (acc ++ [(x, y)]))
    ∧ (∀ x0 y0 cx cy ex ey : Rat,
        objDraw (mqObj x0 y0 cx cy ex ey)
          = some ⟨[(x0, y0), (ex, ey)], (255, 0, 0, 255), 3⟩
        ∧ renderChords (objDraw (mqObj x0 y0 cx cy ex ey))
          = [((x0, y0), (ex, ey))]) := by
  constructor
  · intro acc c1 c2 x y rest
    simp only [stepSeg]
    rw [if_neg (by decide), if_pos (by decide)]
    rfl
  · intro x0 y0 cx cy ex ey
    constructor <;> rfl

/-- C5 counterexample: for the payload-absent case (`json_data` falsy)
`export_canvas_to_file` returns at line 27 without writing any file, so
no saved image exists, let alone one equal to the converted background
as the claim states. -/
theorem c5_cex_absent_payload :
    ¬ ∃ out : RImage, (export_canvas_to_file none bgRGB).2 = some out := by
  rintro ⟨out, h⟩
  simp [export_canvas_to_file] at h

/-- C5 (amended): an empty-object-list payload yields the background
converted to RGBA (alpha forced opaque for a non-RGBA source) with no
draw operations; an absent/falsy payload, or one without an `objects`
key, writes no output file at all. -/
theorem c5_empty_payload_converted_background :
    ∀ (bg : Image) (objs : List PathObj),
      (export_canvas_to_file (some ⟨true, []⟩) bg).2 = some ⟨convertRGBA bg, []⟩
      ∧ (export_canvas_to_file none bg).2 = none
      ∧ (export_canvas_to_file (some ⟨false, objs⟩) bg).2 = none
      ∧ (convertRGBA bg).mode = "RGBA"
      ∧ (bg.mode ≠ "RGBA" →
          (convertRGBA bg).pixels = bg.pixels.map (fun row => row.map setOpaque)) := by
  intro bg objs
  refine ⟨rfl, rfl, rfl, ?_, ?_⟩
  · by_cases h : bg.mode = "RGBA" <;> simp [convertRGBA, h]
  · intro h
    simp [convertRGBA, h]

/-- C5 witness: the alpha-normalization clause evaluated on the
concrete RGB background. -/
theorem c5_witness :
    (convertRGBA bgRGB).pixels = bgRGB.pixels.map (fun row => row.map setOpaque) :=
  (c5_empty_payload_converted_background bgRGB []).2.2.2.2 (by decide)

/-- C6: `export_canvas_to_file` leaves the shared source background
image unchanged — all drawing targets the fresh copy made by
`convert("RGBA")` — and a draw command is only ever issued for a
vertex list with at least two points. -/
theorem c6_background_untouched :
    (∀ (jd : Option CanvasJSON) (bg : Image), (export_canvas_to_file jd bg).1 = bg)
    ∧ (∀ (o : PathObj) (c : DrawCmd), objDraw o = some c → 1 < c.points.length) := by
  constructor
  · intro jd bg
    rcases jd with _ | cd
    · rfl
    · by_cases h : cd.hasObjects = true <;> simp [export_canvas_to_file, h]
  · intro o c h
    unfold objDraw at h
    rcases ho : objOutcome o with _ | _ | d <;> rw [ho] at h
    · simp at h
    · simp at h
    rcases d with _ | c2
    · simp at h
    · simp only [Option.some.injEq] at h
      subst h
      unfold objOutcome at ho
      by_cases ht : o.type = some "path"
      · rw [if_pos ht] at ho
        rcases hp : processPath o with _ | d2 <;> rw [hp] at ho
        · simp at ho
        · simp only [ObjOutcome.ok.injEq] at ho
          rw [ho] at hp
          exact processPath_draw_length hp
      · rw [if_neg ht] at ho
        simp at ho

/-- C6 witness: the second clause evaluated on a concrete two-segment
freehand object. -/
theorem c6_witness :
    1 < (DrawCmd.mk [(0, 0), (1, 2)] (255, 0, 0, 255) 3).points.length :=
  c6_background_untouched.2 mlObj ⟨[(0, 0), (1, 2)], (255, 0, 0, 255), 3⟩ (by decide)

/-- C10: a segment whose command is none of `"M"`, `"L"`, `"Q"`
appends no vertex and raises nothing, and removing such a segment from
a path object's segment list leaves the object's outcome — including
the vertices drawn from its recognized segments — unchanged. -/
theorem c10_unknown_opcode_silently_ignored :
    ∀ (cmd : JVal) (coords : List JVal),
      cmd ≠ JVal.str "M" → cmd ≠ JVal.str "L" → cmd ≠ JVal.str "Q" →
      (∀ acc, stepSeg acc (cmd :: coords) = some acc)
      ∧ ∀ (o : PathObj) (segs1 segs2 : List (List JVal)),
          objOutcome { o with path := segs1 ++ (cmd :: coords) :: segs2 }
            = objOutcome { o with path := segs1 ++ segs2 } := by
  intro cmd coords hm hl hq
  have hstep : ∀ acc, stepSeg acc (cmd :: coords) = some acc := by
    intro acc
    simp only [stepSeg]
    rw [if_neg (by rintro (h | h) <;> [exact hm h; exact hl h]), if_neg hq]
  refine ⟨hstep, ?_⟩
  intro o segs1 segs2
  simp only [objOutcome, processPath]
  rw [walkSegs_append_skip hstep]

/-- C10 witness: a cubic-like `"C"` segment inserted after two
recognized segments changes nothing. -/
theorem c10_witness :
    objOutcome { mlObj with path := mlObj.path ++ (JVal.str "C" :: [JVal.num 1, JVal.num 2]) :: [] }
      = objOutcome { mlObj with path := mlObj.path ++ [] } :=
  (c10_unknown_opcode_silently_ignored (JVal.str "C") [JVal.num 1, JVal.num 2]
      (by decide) (by decide) (by decide)).2 mlObj mlObj.path []

/-- C4: when processing one path object raises (malformed segment or
stroke), that object alone is skipped — its outcome is the caught,
reported error — and every other object's draw command survives: the
payload still rasterizes to exactly the other objects' commands in
order. -/
theorem c4_malformed_stroke_isolated :
    ∀ (bg : Image) (objs1 objs2 : List PathObj) (bad : PathObj),
      objOutcome bad = ObjOutcome.errorSkipped →
      drawCmds (objs1 ++ bad :: objs2) = drawCmds objs1 ++ drawCmds objs2
      ∧ (export_canvas_to_file (some ⟨true, objs1 ++ bad :: objs2⟩) bg).2
          = some ⟨convertRGBA bg, drawCmds objs1 ++ drawCmds objs2⟩ := by
  intro bg objs1 objs2 bad h
  have hnone : objDraw bad = none := by
    unfold objDraw
    rw [h]
  have hmain : drawCmds (objs1 ++ bad :: objs2) = drawCmds objs1 ++ drawCmds objs2 := by
    unfold drawCmds
    rw [List.filterMap_append]
    simp [List.filterMap_cons, hnone]
  refine ⟨hmain, ?_⟩
  simp only [export_canvas_to_file, if_pos]
  rw [hmain]

/-- C4 witness: a segment missing its `y` coordinate (an `IndexError`)
skips only its own object; the two good objects around it still
rasterize. -/
theorem c4_witness :
    drawCmds ([mlObj] ++ badSegObj :: [mlObj]) = drawCmds [mlObj] ++ drawCmds [mlObj]
    ∧ (export_canvas_to_file (some ⟨true, [mlObj] ++ badSegObj :: [mlObj]⟩) bgRGB).2
        = some ⟨convertRGBA bgRGB, drawCmds [mlObj] ++ drawCmds [mlObj]⟩ :=
  c4_malformed_stroke_isolated bgRGB [mlObj] [mlObj] badSegObj (by decide)

/-- C1: for a payload of path objects made only of well-formed
`MoveTo`/`LineTo` segments (with a resolvable stroke colour and width,
as the data model guarantees), the export composites onto the
converted background exactly one draw command per object, and each
object accumulates exactly its segments' `(x, y)` endpoints in
segment order and draws the connected polyline through them: the
painted straight segments are precisely the consecutive chords of that
endpoint list. -/
theorem c1_move_line_polyline :
    (∀ (bg : Image) (objs : List PathObj),
      (export_canvas_to_file (some ⟨true, objs⟩) bg).2
        = some ⟨convertRGBA bg, drawCmds objs⟩)
    ∧ ∀ (o : PathObj) (pts : List (Rat × Rat)) (r g b w : Int),
        o.type = some "path" →
        MLSegs o.path pts →
        getrgb (o.stroke.getD "#ff0000") = some (r, g, b) →
        pyInt (o.strokeWidth.getD (JVal.num 3)) = some w →
        objOutcome o = ObjOutcome.ok
          (if 1 < pts.length then some ⟨pts, (r, g, b, 255), w⟩ else none)
        ∧ renderChords (objDraw o) = chords pts := by
  constructor
  · intro bg objs
    rfl
  · intro o pts r g b w ht hml hc hw
    have hp := processPath_ml o pts r g b w hml hc hw
    have houtcome : objOutcome o = ObjOutcome.ok
        (if 1 < pts.length then some ⟨pts, (r, g, b, 255), w⟩ else none) := by
      unfold objOutcome
      rw [if_pos ht, hp]
    refine ⟨houtcome, ?_⟩
    unfold objDraw
    rw [houtcome]
    by_cases hlen : 1 < pts.length
    · rw [if_pos hlen]
      rfl
    · rw [if_neg hlen]
      rw [chords_short hlen]
      rfl

/-- C1 witness: the two-segment freehand object `mlObj`. -/
theorem c1_witness :
    objOutcome mlObj = ObjOutcome.ok
      (if 1 < ([(0, 0), (1, 2)] : List (Rat × Rat)).length
       then some ⟨[(0, 0), (1, 2)], (255, 0, 0, 255), 3⟩ else none)
    ∧ renderChords (objDraw mlObj) = chords [(0, 0), (1, 2)] :=
  c1_move_line_polyline.2 mlObj [(0, 0), (1, 2)] 255 0 0 3 rfl
    (MLSegs.cons "M" 0 0 [] _ _ (Or.inl rfl)
      (MLSegs.cons "L" 1 2 [] [] [] (Or.inr rfl) MLSegs.nil))
    (by decide) (by decide)

/-- C3 counterexample: a path object with a malformed colour string is
not drawn with the default opaque red — `ImageColor.getrgb` raises
inside the `try`, so the whole stroke is skipped and nothing is drawn,
contradicting the claim that in all four default cases the stroke is
still drawn. -/
theorem c3_cex_malformed_color_skipped :
    objOutcome badColorObj = ObjOutcome.errorSkipped
    ∧ ¬ ∃ c : DrawCmd, objDraw badColorObj = some c := by
  constructor
  · decide
  · rintro ⟨c, hc⟩
    have hnone : objDraw badColorObj = none := by decide
    rw [hnone] at hc
    exact Option.noConfusion hc

/-- C3 (amended): the defaults apply only to absent keys — an object
with no `stroke` key and no `strokeWidth` key is drawn with opaque red
and width 3 — while a malformed colour string or width value raises,
and that stroke is skipped and reported rather than drawn with a
default. -/
theorem c3_defaults_only_when_absent :
    ∀ (o : PathObj) (pts : List (Rat × Rat)),
      (o.type = some "path" → o.stroke = none → o.strokeWidth = none →
        MLSegs o.path pts →
        objOutcome o = ObjOutcome.ok
          (if 1 < pts.length then some ⟨pts, (255, 0, 0, 255), 3⟩ else none))
      ∧ (o.type = some "path" →
          getrgb (o.stroke.getD "#ff0000") = none ∨
            pyInt (o.strokeWidth.getD (JVal.num 3)) = none →
          objOutcome o = ObjOutcome.errorSkipped ∧ objDraw o = none) := by
  intro o pts
  constructor
  · intro ht hs hsw hml
    have hp := processPath_ml o pts 255 0 0 3 hml
      (by rw [hs]; decide) (by rw [hsw]; decide)
    unfold objOutcome
    rw [if_pos ht, hp]
  · intro ht hbad
    have hp : processPath o = none := by
      unfold processPath
      rcases hbad with hc | hw
      · rcases hpw : pyInt (o.strokeWidth.getD (JVal.num 3)) with _ | w
        · simp [hpw]
        · simp [hpw, hc]
      · simp [hw]
    constructor
    · unfold objOutcome
      rw [if_pos ht, hp]
    · unfold objDraw objOutcome
      rw [if_pos ht, hp]

/-- C3 witness: the absent-keys default on `mlObj`, and the skip on
the malformed-colour object. -/
theorem c3_witness :
    objOutcome mlObj = ObjOutcome.ok
      (if 1 < ([(0, 0), (1, 2)] : List (Rat × Rat)).length
       then some ⟨[(0, 0), (1, 2)], (255, 0, 0, 255), 3⟩ else none)
    ∧ (objOutcome badColorObj = ObjOutcome.errorSkipped
       ∧ objDraw badColorObj = none) :=
  ⟨(c3_defaults_only_when_absent mlObj [(0, 0), (1, 2)]).1 rfl rfl rfl
     (MLSegs.cons "M" 0 0 [] _ _ (Or.inl rfl)
       (MLSegs.cons "L" 1 2 [] [] [] (Or.inr rfl) MLSegs.nil)),
   (c3_defaults_only_when_absent badColorObj []).2 rfl (Or.inl (by decide))⟩

theorem string_data_append (a b : String) : (a ++ b).data = a.data ++ b.data := by
  cases a
  cases b
  rfl

theorem newlineCount_append (a b : String) :
    newlineCount (a ++ b) = newlineCount a + newlineCount b := by
  unfold newlineCount
  rw [string_data_append, List.count_append]

theorem escQuotes_count_nl (l : List Char) :
    (escQuotes l).count '\n' = l.count '\n' := by
  induction l with
  | nil => rfl
  | cons c cs ih =>
    by_cases hc : c = '"'
    · subst hc
      simp [escQuotes, ih, List.count_cons]
    · simp [escQuotes, hc, ih, List.count_cons]

theorem csvField_nl (s : String) :
    newlineCount (csvField s) = s.data.count '\n' := by
  unfold csvField
  by_cases h : needsQuote s = true
  · rw [if_pos h, newlineCount_append, newlineCount_append]
    unfold newlineCount
    simp [escQuotes_count_nl]
  · rw [if_neg h]
    rfl

theorem joinFields_nl (fs : List String) (h : ∀ f ∈ fs, noNL f = true) :
    newlineCount (joinFields fs) = 0 := by
  induction fs with
  | nil => rfl
  | cons f t ih =>
    have hf : ('\n' : Char) ∉ f.data := by
      have := h f (by simp)
      simpa [noNL] using this
    cases t with
    | nil =>
      show newlineCount (csvField f) = 0
      rw [csvField_nl]
      exact List.count_eq_zero.mpr hf
    | cons g u =>
      show newlineCount (csvField f ++ "," ++ joinFields (g :: u)) = 0
      rw [newlineCount_append, newlineCount_append, csvField_nl,
        List.count_eq_zero.mpr hf,
        ih (fun x hx => h x (by simp [hx]))]
      rfl

theorem csvText_lines (rows : List (List String))
    (h : ∀ row ∈ rows, ∀ f ∈ row, noNL f = true) :
    newlineCount (csvText rows) = rows.length := by
  induction rows with
  | nil => rfl
  | cons r t ih =>
    show newlineCount (csvLine r ++ csvText t) = (r :: t).length
    rw [newlineCount_append]
    unfold csvLine
    rw [newlineCount_append, joinFields_nl r (h r (by simp)),
      ih (fun row hr f hf => h row (by simp [hr]) f hf)]
    simp [newlineCount]
    omega

theorem mapFix {α : Type} (f : α → α) :
    ∀ l : List α, (∀ x ∈ l, f x = x) → l.map f = l := by
  intro l h
  induction l with
  | nil => rfl
  | cons a t ih =>
    simp only [List.map_cons, h a (by simp)]
    rw [ih (fun x hx => h x (by simp [hx]))]

theorem naNormalize_stable {s : String} (h : stableField s = true) :
    naNormalize s = s := by
  unfold stableField at h
  simp only [Bool.and_eq_true, Bool.not_eq_true', decide_eq_false_iff_not] at h
  unfold naNormalize
  rw [if_neg h.1]

theorem readBack_stable {rows : List (List String)}
    (h : ∀ row ∈ rows, ∀ f ∈ row, stableField f = true) :
    readBack rows = rows := by
  unfold readBack
  apply mapFix
  intro row hrow
  apply mapFix
  intro f hf
  exact naNormalize_stable (h row hrow f hf)

theorem foldl_save_stable :
    ∀ (rs : List SessionRecord) (rows : List (List String)),
      (∀ row ∈ rows, ∀ f ∈ row, stableField f = true) →
      (∀ r ∈ rs, ∀ f ∈ recordRow r, stableField f = true) →
      rs.foldl (fun st r => some (saveRecord st r)) (some rows)
        = some (rows ++ rs.map recordRow) := by
  intro rs
  induction rs with
  | nil =>
    intro rows _ _
    simp
  | cons r t ih =>
    intro rows hrows hrs
    rw [List.foldl_cons]
    have hstep : saveRecord (some rows) r = rows ++ [recordRow r] := by
      show readBack rows ++ [recordRow r] = _
      rw [readBack_stable hrows]
    rw [hstep]
    rw [ih (rows ++ [recordRow r]) ?_ ?_]
    · simp
    · intro row hrow f hf
      rcases List.mem_append.mp hrow with h1 | h2
      · exact hrows row h1 f hf
      · obtain rfl := List.mem_singleton.mp h2
        exact hrs r (by simp) f hf
    · intro r2 hr2 f hf
      exact hrs r2 (by simp [hr2]) f hf

/-- C7 counterexample, refuting the claim at three concrete points:
appending a single record whose Notes field spans two lines yields a
file of 3 physical lines, not the claimed N + 1 = 2 (the field is
quoted and its newline is embedded in the one data row); appending a
second record after a record whose Notes field is the free text `NA`
does not preserve the earlier row — the next save's `pd.read_csv`
reads `NA` as NaN and `to_csv` rewrites it as an empty field; and with
N = 0 no file is created at all, rather than a one-line header file. -/
theorem c7_cex_multiline_and_na_notes :
    (storeAfter [twoLineNoteRec] = some [csvHeader, recordRow twoLineNoteRec]
     ∧ newlineCount (csvText [csvHeader, recordRow twoLineNoteRec]) = 3
     ∧ ¬ newlineCount (csvText [csvHeader, recordRow twoLineNoteRec]) = 1 + 1)
    ∧ (storeAfter [naNoteRec, plainRec]
         = some [csvHeader, recordRow { naNoteRec with notes := "" }, recordRow plainRec]
       ∧ ¬ storeAfter [naNoteRec, plainRec]
           = some [csvHeader, recordRow naNoteRec, recordRow plainRec])
    ∧ storeAfter ([] : List SessionRecord) = none := by
  refine ⟨⟨rfl, by decide, by decide⟩, ⟨by decide, by decide⟩, rfl⟩

/-- C7 (amended): the first append to a fresh location creates the
file with the fixed header row (columns Date, Horse, Amount, Paid,
Email, Notes); with zero appends no file exists; a later append
re-reads the existing file and extends it by exactly one data row at
the end; and for records all of whose fields are round-trip stable
(outside pandas' default NA list and not numeric-looking, so neither
NA rewriting nor dtype inference touches them) the store after N ≥ 1
appends is exactly the header followed by the N data rows in append
order, earlier rows unchanged, with physical line count N + 1 provided
no field contains an embedded newline. -/
theorem c7_append_or_create :
    (∀ rows r, saveRecord (some rows) r = readBack rows ++ [recordRow r])
    ∧ storeAfter [] = none
    ∧ ∀ (r0 : SessionRecord) (rs : List SessionRecord),
        (∀ r ∈ r0 :: rs, ∀ f ∈ recordRow r, stableField f = true) →
        storeAfter (r0 :: rs) = some (csvHeader :: (r0 :: rs).map recordRow)
        ∧ ((∀ r ∈ r0 :: rs, ∀ f ∈ recordRow r, noNL f = true) →
            newlineCount (csvText (csvHeader :: (r0 :: rs).map recordRow))
              = (r0 :: rs).length + 1) := by
  refine ⟨fun rows r => rfl, rfl, ?_⟩
  intro r0 rs hstable
  constructor
  · unfold storeAfter
    rw [List.foldl_cons]
    show rs.foldl _ (some [csvHeader, recordRow r0]) = _
    rw [foldl_save_stable rs [csvHeader, recordRow r0] ?_ ?_]
    · simp
    · intro row hrow f hf
      rcases List.mem_cons.mp hrow with hh | hm
      · subst hh
        revert hf
        revert f
        decide
      · obtain rfl := List.mem_singleton.mp hm
        exact hstable r0 (by simp) f hf
    · intro r2 hr2 f hf
      exact hstable r2 (by simp [hr2]) f hf
  · intro hfields
    rw [csvText_lines]
    · simp
    · intro row hrow f hf
      rcases List.mem_cons.mp hrow with hh | hm
      · subst hh
        revert hf
        revert f
        decide
      · obtain ⟨r, hr, rfl⟩ := List.mem_map.mp hm
        exact hfields r hr f hf

/-- C7 witness: two all-stable newline-free records appended to a
fresh store give header plus both rows in order and three physical
lines. -/
theorem c7_witness :
    storeAfter [stableRec, stableRec2]
      = some (csvHeader :: ([stableRec, stableRec2] : List SessionRecord).map recordRow)
    ∧ newlineCount
        (csvText (csvHeader :: ([stableRec, stableRec2] : List SessionRecord).map recordRow))
      = ([stableRec, stableRec2] : List SessionRecord).length + 1 :=
  ⟨(c7_append_or_create.2.2 stableRec [stableRec2] (by decide)).1,
   (c7_append_or_create.2.2 stableRec [stableRec2] (by decide)).2 (by decide)⟩

/-- C8 counterexample: a save with a client email but with neither
annotated diagram file existing on disk (the canvases were never
drawn, so `export_canvas_to_file` wrote nothing) makes its single
delivery attempt with zero attachments, not two. -/
theorem c8_cex_missing_files :
    countSends (saveSessionFlow none plainRec "a@b.c" "Star" false false false).2 = 1
    ∧ Ev.apiSend 0 ∈ (saveSessionFlow none plainRec "a@b.c" "Star" false false false).2
    ∧ Ev.apiSend 2 ∉ (saveSessionFlow none plainRec "a@b.c" "Star" false false false).2 := by
  refine ⟨by decide, by decide, by decide⟩

/-- C8 (amended): an empty client email yields zero delivery
attempts; a non-empty client email yields exactly one delivery
attempt, whose attachments are the annotated diagram files that exist
on disk — exactly two when both the left and right files exist. -/
theorem c8_delivery_attempts :
    ∀ (store : Option (List (List String))) (r : SessionRecord) (horse : String)
      (lE rE sf : Bool) (email : String),
      countSends (saveSessionFlow store r "" horse lE rE sf).2 = 0
      ∧ (email ≠ "" →
          countSends (saveSessionFlow store r email horse lE rE sf).2 = 1
          ∧ Ev.apiSend (emailAttachments horse lE rE).length
              ∈ (saveSessionFlow store r email horse lE rE sf).2
          ∧ (lE = true → rE = true →
              Ev.apiSend 2 ∈ (saveSessionFlow store r email horse lE rE sf).2)) := by
  intro store r horse lE rE sf email
  constructor
  · simp [saveSessionFlow, countSends]
  · intro hemail
    refine ⟨?_, ?_, ?_⟩
    · cases sf <;>
        simp [saveSessionFlow, send_session_email, countSends, if_pos hemail,
          List.countP_append, List.countP_cons]
    · cases sf <;>
        simp [saveSessionFlow, send_session_email, if_pos hemail]
    · intro hl hr
      subst hl
      subst hr
      cases sf <;>
        simp [saveSessionFlow, send_session_email, emailAttachments, if_pos hemail]

/-- C8 witness: both files exist and an email is supplied — one
attempt, two attachments. -/
theorem c8_witness :
    countSends (saveSessionFlow none plainRec "a@b.c" "Star" true true false).2 = 1
    ∧ Ev.apiSend (emailAttachments "Star" true true).length
        ∈ (saveSessionFlow none plainRec "a@b.c" "Star" true true false).2
    ∧ (true = true → true = true →
        Ev.apiSend 2 ∈ (saveSessionFlow none plainRec "a@b.c" "Star" true true false).2) :=
  (c8_delivery_attempts none plainRec "Star" true true false "a@b.c").2 (by decide)

/-- C9: a delivery failure is caught inside `send_session_email`,
which returns `False` rather than propagating; the record was written
to the CSV store before the send was attempted (the persist event
opens the trace, the attempt comes after), the persisted rows are
identical whether or not the send fails, and the failure surfaces as
the non-fatal error report plus the `Email failed to send` warning
that ends the trace. -/
theorem c9_failure_nonfatal_already_persisted :
    ∀ (store : Option (List (List String))) (r : SessionRecord)
      (horse email : String) (lE rE : Bool),
      email ≠ "" →
      (send_session_email horse lE rE true).2 = false
      ∧ (saveSessionFlow store r email horse lE rE true).1 = saveRecord store r
      ∧ (saveSessionFlow store r email horse lE rE true).1
          = (saveSessionFlow store r email horse lE rE false).1
      ∧ (saveSessionFlow store r email horse lE rE true).2
          = [Ev.persist, Ev.savedMsg, Ev.exportLeft, Ev.exportRight,
             Ev.apiSend (emailAttachments horse lE rE).length,
             Ev.sgErrorMsg, Ev.failWarnMsg] := by
  intro store r horse email lE rE h
  refine ⟨rfl, rfl, rfl, ?_⟩
  simp [saveSessionFlow, send_session_email, if_pos h]

/-- C9 witness: concrete failing send with both attachments present. -/
theorem c9_witness :
    (send_session_email "Star" true true true).2 = false
    ∧ (saveSessionFlow none plainRec "a@b.c" "Star" true true true).1
        = saveRecord none plainRec
    ∧ (saveSessionFlow none plainRec "a@b.c" "Star" true true true).1
        = (saveSessionFlow none plainRec "a@b.c" "Star" true true false).1
    ∧ (saveSessionFlow none plainRec "a@b.c" "Star" true true true).2
        = [Ev.persist, Ev.savedMsg, Ev.exportLeft, Ev.exportRight,
           Ev.apiSend (emailAttachments "Star" true true).length,
           Ev.sgErrorMsg, Ev.failWarnMsg] :=
  c9_failure_nonfatal_already_persisted none plainRec "Star" "a@b.c" true true (by decide)

end Equine
